import Mathlib

/-!
Verification development for the neev_trade_ops document-extraction service.

The Lean definitions below are shallow embeddings of the Python sources:
`utils.py` (filename parsing), `processing.py` (grouping, extraction merge,
result-row assembly, CSV append, job loop), `api_client.py` (output
sanitization, retry loop, admission semaphore) and `config.py` (column order,
document field registry).  Machine floats (confidence scores) are embedded as
rationals; dynamically-typed Python values are embedded with explicit sum
types where the distinction matters.
-/

namespace NeevTradeOps

/-! ## Characters used in text surgery

Named characters keep the embedding readable where the Python source uses
brace / bracket / quote literals. -/

def lbraceChar : Char := Char.ofNat 123
def rbraceChar : Char := Char.ofNat 125
def lbrackChar : Char := Char.ofNat 91
def rbrackChar : Char := Char.ofNat 93
def quoteChar : Char := Char.ofNat 34
def backslashChar : Char := Char.ofNat 92

/-! ## utils.parse_filename_for_grouping

`utils.py` lines 55-72.  The Python code takes `Path(filename).stem`, then
runs `re.search(r'(.*?)(?:[ _]|Page|-)?(\d+)$', stem, re.IGNORECASE)`.
The regex semantics are embedded directly: `search` tries start positions
left to right, `(.*?)` is lazy, the separator group is optional (greedy,
alternatives `[ _]`, `Page` case-insensitive, `-` in that order) and
`(\d+)$` forces the remainder of the stem to be a non-empty digit run.
Since every separator begins with a non-digit, at each start position at
most one of the with-separator / without-separator readings can succeed. -/

/-- Python `str.find`: index of the first occurrence of `c`, `none` in
place of `-1`. -/
def pyFindIdx (cs : List Char) (c : Char) : Option Nat :=
  match cs with
  | [] => none
  | x :: rest => if x = c then some 0 else (pyFindIdx rest c).map (· + 1)

/-- Python `str.rfind`: index of the last occurrence of `c`, if any. -/
def rfindIdx (cs : List Char) (c : Char) : Option Nat :=
  (pyFindIdx cs.reverse c).map (fun j => cs.length - 1 - j)

/-- Python `pathlib.PurePath.stem`: drop the last dot-suffix when the last
dot is neither the first character nor the last. -/
def pathStem (name : String) : String :=
  let cs := name.toList
  match rfindIdx cs '.' with
  | some i => if 0 < i ∧ i < cs.length - 1 then String.mk (cs.take i) else name
  | none => name

/-- Non-empty all-digit run, as required by `(\d+)$`. -/
def allDigits (ds : List Char) : Bool :=
  !ds.isEmpty && ds.all Char.isDigit

/-- Numeric value of a digit run (Python `int`). -/
def digitsVal (ds : List Char) : Nat :=
  ds.foldl (fun n c => 10 * n + (c.toNat - 48)) 0

/-- Consume the optional separator `(?:[ _]|Page|-)` at the head of `rest`,
alternatives in regex order, `Page` matched case-insensitively. -/
def sepSplit (rest : List Char) : Option (List Char) :=
  match rest with
  | [] => none
  | c :: rs =>
    if c = ' ' ∨ c = '_' then some rs
    else if (rest.take 4).map Char.toLower = ['p', 'a', 'g', 'e'] then some (rest.drop 4)
    else if c = '-' then some rs
    else none

/-- Try to match `(?:[ _]|Page|-)?(\d+)$` against `rest` (the stem from the
current start position to its end); returns the digit group.  The greedy
optional separator is tried first, with backtracking to the empty reading. -/
def matchTailAt (rest : List Char) : Option (List Char) :=
  match sepSplit rest with
  | some rest2 =>
    if allDigits rest2 then some rest2
    else if allDigits rest then some rest
    else none
  | none => if allDigits rest then some rest else none

/-- Leftmost start position semantics of `re.search`: return the `(.*?)`
prefix and the `(\d+)` group for the smallest split where the regex tail
matches. -/
def scanSplit (pre : List Char) (rest : List Char) : Option (List Char × List Char) :=
  match matchTailAt rest with
  | some ds => some (pre, ds)
  | none =>
    match rest with
    | [] => none
    | c :: rs => scanSplit (pre ++ [c]) rs

/-- Python `str.strip(' _-')`. -/
def stripGroupChars (cs : List Char) : List Char :=
  let keep := fun c => ¬(c = ' ' ∨ c = '_' ∨ c = '-')
  ((cs.dropWhile (fun c => !decide (keep c))).reverse.dropWhile
      (fun c => !decide (keep c))).reverse

/-- `utils.parse_filename_for_grouping`: base name and page number. -/
def parse_filename_for_grouping (filename : String) : String × Nat :=
  let cs := (pathStem filename).toList
  let (b, p) :=
    match scanSplit [] cs with
    | some (base, ds) =>
      if base.isEmpty then (cs, 1) else (stripGroupChars base, digitsVal ds)
    | none => (cs, 1)
  (if b.isEmpty then "unknown_document" else String.mk b, p)

/-! ## processing._group_files_by_base_name and _prepare_document_files

`processing.py` lines 50-52 and 119-130.  Files with a supported extension
are grouped by parsed base name (a `defaultdict` keeps first-insertion key
order and appends within a key), then every group is sorted ascending by
page number.  Python `list.sort` is a stable sort; the embedding uses a
stable insertion sort, which computes the identical permutation. -/

structure PageFile where
  path : String
  page : Nat
deriving DecidableEq, Repr

def SUPPORTED_FILE_EXTENSIONS : List String := [".pdf", ".png", ".jpg", ".jpeg"]

/-- Case-insensitive suffix test on character lists. -/
def endsWithCI (name : String) (suffixStr : String) : Bool :=
  (name.toList.map Char.toLower).reverse.take suffixStr.toList.length =
    (suffixStr.toList.map Char.toLower).reverse

/-- The extension filter `re.search(f"(pattern)$", name, re.IGNORECASE)`. -/
def hasSupportedExt (name : String) : Bool :=
  SUPPORTED_FILE_EXTENSIONS.any (fun e => endsWithCI name e)

/-- Append `pf` to the group of key `b`, creating the group at the end when
absent (Python `defaultdict(list)` insertion-order semantics). -/
def insertGroup (groups : List (String × List PageFile)) (b : String) (pf : PageFile) :
    List (String × List PageFile) :=
  match groups with
  | [] => [(b, [pf])]
  | (k, l) :: rest =>
    if k = b then (k, l ++ [pf]) :: rest else (k, l) :: insertGroup rest b pf

/-- Stable insertion of one element into a page-sorted list. -/
def insertPage (pf : PageFile) : List PageFile → List PageFile
  | [] => [pf]
  | q :: qs => if pf.page ≤ q.page then pf :: q :: qs else q :: insertPage pf qs

/-- Stable sort ascending by page number (`doc_groups[base].sort(key=page)`
and `_prepare_document_files`). -/
def sortByPage : List PageFile → List PageFile
  | [] => []
  | pf :: rest => insertPage pf (sortByPage rest)

/-- `processing._group_files_by_base_name`, at the level of file names inside
one case folder. -/
def _group_files_by_base_name (files : List String) : List (String × List PageFile) :=
  let raw := files.foldl
    (fun gs f =>
      if hasSupportedExt f then
        let bp := parse_filename_for_grouping f
        insertGroup gs bp.1 ⟨f, bp.2⟩
      else gs) []
  raw.map (fun g => (g.1, sortByPage g.2))

/-- `processing._prepare_document_files`: sorts by page before every model
call, so this is exactly the page sequence submitted to the gateway. -/
def _prepare_document_files (l : List PageFile) : List PageFile := sortByPage l

/-- Non-decreasing page indices along a list. -/
def pagesNonDecreasing (l : List PageFile) : Prop :=
  List.Chain' (fun a b => a.page ≤ b.page) l

/-! ## api_client._sanitize_llm_output

`api_client.py` lines 19-44.  Extract the substring between the first
opening brace (`str.find`) and the last closing brace (`str.rfind`); when
either is absent or they cross, the raw text is returned unchanged.  Then
`re.sub(r",\s*([\x7d\x5d])", r"\1", block)` removes a comma and any
whitespace run standing directly before a closing brace or bracket, scanning
left to right over non-overlapping matches. -/

/-- Python regex `\s` over the ASCII range. -/
def isPyWs (c : Char) : Bool :=
  c = ' ' ∨ c = Char.ofNat 9 ∨ c = Char.ofNat 10 ∨ c = Char.ofNat 13 ∨
    c = Char.ofNat 12 ∨ c = Char.ofNat 11

/-- The `re.sub(r",\s*([\x7d\x5d])", r"\1", s)` pass: left-to-right scan;
at a comma followed by optional whitespace and a closing brace/bracket, the
comma and whitespace are dropped, the bracket kept, and scanning resumes
after the bracket. -/
def stripCommasGo : Nat → List Char → List Char
  | 0, cs => cs
  | _, [] => []
  | fuel + 1, c :: rest =>
    if c = ',' then
      let k := (rest.takeWhile isPyWs).length
      match rest.drop k with
      | b :: _ =>
        if b = rbraceChar ∨ b = rbrackChar then
          b :: stripCommasGo fuel (rest.drop (k + 1))
        else c :: stripCommasGo fuel rest
      | [] => c :: stripCommasGo fuel rest
    else c :: stripCommasGo fuel rest

/-- Wrapper at full fuel: every recursive call strictly shortens the list,
so `cs.length` steps always complete the scan. -/
def stripTrailingCommas (cs : List Char) : List Char :=
  stripCommasGo cs.length cs

/-- `api_client._sanitize_llm_output`. -/
def _sanitize_llm_output (raw : String) : String :=
  let cs := raw.toList
  match pyFindIdx cs lbraceChar, rfindIdx cs rbraceChar with
  | some s, some e =>
    if s > e then raw
    else String.mk (stripTrailingCommas ((cs.drop s).take (e + 1 - s)))
  | some _, none => raw
  | none, _ => raw

/-! ## Strict JSON acceptance

The sanitized text is handed to `response_schema.model_validate_json` /
`json.loads`, which accept exactly the RFC 8259 grammar.  The checker below
embeds that grammar (fuel-indexed recursive descent; the fuel only bounds
nesting and is chosen larger than the input length, so it never cuts off a
valid document). -/

def isJsonWs (c : Char) : Bool :=
  c = ' ' ∨ c = Char.ofNat 9 ∨ c = Char.ofNat 10 ∨ c = Char.ofNat 13

def skipJsonWs (cs : List Char) : List Char := cs.dropWhile isJsonWs

def isHexDigit (c : Char) : Bool :=
  c.isDigit ∨ ('a' ≤ c ∧ c ≤ 'f') ∨ ('A' ≤ c ∧ c ≤ 'F')

def jsonStringGo : Nat → List Char → Option (List Char)
  | 0, _ => none
  | _, [] => none
  | fuel + 1, c :: rs =>
    if c = quoteChar then some rs
    else if c = backslashChar then
      match rs with
      | [] => none
      | e :: rs2 =>
        if e = quoteChar ∨ e = backslashChar ∨ e = '/' ∨ e = 'b' ∨ e = 'f' ∨
            e = 'n' ∨ e = 'r' ∨ e = 't' then jsonStringGo fuel rs2
        else if e = 'u' then
          if (rs2.take 4).length = 4 ∧ (rs2.take 4).all isHexDigit then
            jsonStringGo fuel (rs2.drop 4)
          else none
        else none
    else if c.toNat < 32 then none
    else jsonStringGo fuel rs

/-- Consume a JSON string body after the opening quote (fuel covers the
list length, and each step strictly shortens the list). -/
def jsonStringRest (cs : List Char) : Option (List Char) :=
  jsonStringGo cs.length cs

/-- Consume a JSON number (`-?(0|[1-9][0-9]*)(\.[0-9]+)?([eE][+-]?[0-9]+)?`). -/
def jsonNumberRest (cs : List Char) : Option (List Char) :=
  let cs1 := match cs with
    | c :: rs => if c = '-' then rs else cs
    | [] => []
  match cs1 with
  | [] => none
  | c :: rs =>
    if ¬ c.isDigit then none
    else
      let intRest := if c = '0' then rs else rs.dropWhile Char.isDigit
      let afterFrac :=
        match intRest with
        | '.' :: fs =>
          let ds := fs.takeWhile Char.isDigit
          if ds.isEmpty then none else some (fs.drop ds.length)
        | _ => some intRest
      match afterFrac with
      | none => none
      | some rest2 =>
        match rest2 with
        | e :: es =>
          if e = 'e' ∨ e = 'E' then
            let es2 := match es with
              | s :: ss => if s = '+' ∨ s = '-' then ss else es
              | [] => []
            let ds := es2.takeWhile Char.isDigit
            if ds.isEmpty then none else some (es2.drop ds.length)
          else some rest2
        | [] => some rest2

/-- Consume a fixed literal tail (for `true` / `false` / `null`). -/
def jsonLitRest (lit : List Char) (cs : List Char) : Option (List Char) :=
  if cs.take lit.length = lit then some (cs.drop lit.length) else none

inductive JsonMode where
  | value
  | objMembers (first : Bool)
  | arrItems (first : Bool)
deriving DecidableEq

/-- One-function recursive-descent acceptance of the RFC 8259 grammar,
structural on the fuel (which only bounds the nesting/step chain and is
chosen larger than the input length).  `value` consumes one JSON value;
`objMembers` / `arrItems` consume the members of an object / array after
its opening bracket, including the closing bracket. -/
def jsonRun : Nat → JsonMode → List Char → Option (List Char)
  | 0, _, _ => none
  | fuel + 1, .value, cs =>
    match skipJsonWs cs with
    | [] => none
    | c :: rs =>
      if c = quoteChar then jsonStringRest rs
      else if c = lbraceChar then jsonRun fuel (.objMembers true) rs
      else if c = lbrackChar then jsonRun fuel (.arrItems true) rs
      else if c = 't' then jsonLitRest ['r', 'u', 'e'] rs
      else if c = 'f' then jsonLitRest ['a', 'l', 's', 'e'] rs
      else if c = 'n' then jsonLitRest ['u', 'l', 'l'] rs
      else jsonNumberRest (c :: rs)
  | fuel + 1, .objMembers first, cs =>
    match skipJsonWs cs with
    | [] => none
    | c :: rs =>
      if c = rbraceChar then some rs
      else
        let afterComma :=
          if first then some (c :: rs)
          else if c = ',' then some rs
          else none
        match afterComma with
        | none => none
        | some cs2 =>
          match skipJsonWs cs2 with
          | [] => none
          | k :: ks =>
            if k = quoteChar then
              match jsonStringRest ks with
              | none => none
              | some afterKey =>
                match skipJsonWs afterKey with
                | ':' :: vs =>
                  match jsonRun fuel .value vs with
                  | none => none
                  | some afterVal => jsonRun fuel (.objMembers false) afterVal
                | _ => none
            else none
  | fuel + 1, .arrItems first, cs =>
    match skipJsonWs cs with
    | [] => none
    | c :: rs =>
      if c = rbrackChar then some rs
      else
        let afterComma :=
          if first then some (c :: rs)
          else if c = ',' then some rs
          else none
        match afterComma with
        | none => none
        | some cs2 =>
          match jsonRun fuel .value cs2 with
          | none => none
          | some afterVal => jsonRun fuel (.arrItems false) afterVal

/-- Strict JSON document acceptance (a whole text parses as one value). -/
def isValidJson (s : String) : Bool :=
  match jsonRun (s.toList.length + 8) .value s.toList with
  | some rest => (skipJsonWs rest).isEmpty
  | none => false

/-! ## config.py constants (environment-variable defaults) -/

def API_MAX_RETRIES : Nat := 50
def API_CONCURRENCY_LIMIT : Nat := 1
def JSON_CORRECTION_ATTEMPTS : Nat := 3

/-! ## api_client.APIClient.call_llm_with_parsing — retry loop

`api_client.py` lines 98-160.  The loop runs `for attempt in range(n)` with
`n = API_MAX_RETRIES` (or 1 for correction calls).  The environment's
behaviour at each attempt is an oracle `outcomes : Nat → AttemptOutcome`:
a successful parse, an `APIConnectionError`, an `APIStatusError` (any
non-success HTTP status — the `openai` client raises it for 4xx and 5xx
alike), a Pydantic `ValidationError` carrying the raw text, or any other
exception.  Connection/status errors continue the loop unless the attempt
is the last; a validation error goes through programmatic sanitization and
returns either the re-parsed object or an error mapping, never looping; any
other exception returns an error mapping at once. -/

inductive AttemptOutcome (V : Type) where
  | success (v : V)
  | connError (msg : String)
  | statusError (code : Nat) (msg : String)
  | validationError (raw : String)
  | appError (msg : String)
deriving DecidableEq, Repr

inductive CallReturn (V : Type) where
  | parsed (v : V)
  | errorDict (msg : String)
deriving DecidableEq, Repr

/-- The loop body, structural on the count of attempts left
(`remaining = maxRetries - i` at attempt `i`).  `parse` stands for
`response_schema.model_validate_json` applied after sanitization. -/
def runCallSteps {V : Type} (parse : String → Option V) (maxRetries : Nat)
    (outcomes : Nat → AttemptOutcome V) : Nat → Nat → CallReturn V
  | _, 0 => .errorDict "All retry attempts failed."
  | i, remaining + 1 =>
    match outcomes i with
    | .success v => .parsed v
    | .connError m =>
      if i = maxRetries - 1 then .errorDict ("API Error after retries: " ++ m)
      else runCallSteps parse maxRetries outcomes (i + 1) remaining
    | .statusError _ m =>
      if i = maxRetries - 1 then .errorDict ("API Error after retries: " ++ m)
      else runCallSteps parse maxRetries outcomes (i + 1) remaining
    | .validationError raw =>
      match parse (_sanitize_llm_output raw) with
      | some v => .parsed v
      | none => .errorDict ("Schema Validation Error after sanitization: " ++ raw)
    | .appError m => .errorDict ("Application Error: " ++ m)

/-- The loop from attempt `i` on: exactly `maxRetries - i` iterations
remain. -/
def runCallFrom {V : Type} (parse : String → Option V) (maxRetries : Nat)
    (outcomes : Nat → AttemptOutcome V) (i : Nat) : CallReturn V :=
  runCallSteps parse maxRetries outcomes i (maxRetries - i)

def call_llm_with_parsing {V : Type} (parse : String → Option V)
    (is_correction : Bool) (outcomes : Nat → AttemptOutcome V) : CallReturn V :=
  runCallFrom parse (if is_correction then 1 else API_MAX_RETRIES) outcomes 0

/-! ## api_client.APIClient admission semaphore

`api_client.py` lines 46-57 and 87: the client owns
`asyncio.Semaphore(API_CONCURRENCY_LIMIT)` and the whole of
`call_llm_with_parsing` runs inside `async with self._semaphore`.  The
cooperative scheduling is embedded as a transition system: each logical
task is waiting, holding a slot with its model call in flight, or done.
`asyncio.Semaphore` semantics: `acquire` succeeds only when the internal
counter is positive, decrementing it (otherwise the caller suspends);
release increments the counter. -/

inductive TaskPhase where
  | waiting
  | inFlight
  | done
deriving DecidableEq, Repr

structure GatewayState where
  sem : Nat
  tasks : List TaskPhase
deriving DecidableEq, Repr

def inFlightCount (ts : List TaskPhase) : Nat :=
  ts.countP (fun t => t = TaskPhase.inFlight)

/-- One scheduler step: a waiting task acquires a free slot, or an
in-flight task finishes its call and releases its slot. -/
inductive GatewayStep : GatewayState → GatewayState → Prop where
  | acquire (s : GatewayState) (i : Nat)
      (hw : s.tasks.get? i = some .waiting) (hs : 0 < s.sem) :
      GatewayStep s ⟨s.sem - 1, s.tasks.set i .inFlight⟩
  | release (s : GatewayState) (i : Nat)
      (hf : s.tasks.get? i = some .inFlight) :
      GatewayStep s ⟨s.sem + 1, s.tasks.set i .done⟩

/-- All `n` group tasks start waiting; the semaphore counter starts at the
configured limit. -/
def gatewayInit (limit n : Nat) : GatewayState :=
  ⟨limit, List.replicate n .waiting⟩

def GatewayReachable (limit n : Nat) (s : GatewayState) : Prop :=
  Relation.ReflTransGen GatewayStep (gatewayInit limit n) s

/-! ## config.py registry data -/

/-- `config.EXCEL_COLUMN_ORDER` (98 entries, verbatim). -/
def EXCEL_COLUMN_ORDER : List String := [
  "CASE_ID",
  "GROUP_Basename",
  "CLASSIFIED_Type",
  "CRL_DATE & TIME OF RECEIPT OF DOCUMENT_Value",
  "CRL_TRANSACTION Product Code Selection_Value",
  "CRL_CUSTOMER REQUEST LETTER DATE_Value",
  "CRL_DESCRIPTION OF GOODS_Value",
  "CRL_TYPE OF GOODS_Value",
  "CRL_MODE OF REMITTANCE_Value",
  "CRL_APPLICANT NAME_Value",
  "CRL_APPLICANT ADDRESS_Value",
  "CRL_APPLICANT COUNTRY_Value",
  "CRL_DEBIT ACCOUNT NO_Value",
  "CRL_FEE ACCOUNT NO_Value",
  "CRL_REMITTANCE AMOUNT_Value",
  "CRL_REMITTANCE CURRENCY_Value",
  "CRL_CURRENCY AND AMOUNT OF REMITTANCE IN WORDS_Value",
  "CRL_BENEFICIARY NAME_Value",
  "CRL_BENEFICIARY ADDRESS_Value",
  "CRL_BENEFICIARY COUNTRY_Value",
  "CRL_BENEFICIARY ACCOUNT NO / IBAN_Value",
  "CRL_BENEFICIARY BANK_Value",
  "CRL_BENEFICIARY BANK ADDRESS_Value",
  "CRL_BENEFICIARY BANK SWIFT CODE / SORT CODE/ BSB / IFS CODE_Value",
  "CRL_FB CHARGES_Value",
  "CRL_INTERMEDIARY BANK NAME_Value",
  "CRL_INTERMEDIARY BANK ADDRESS_Value",
  "CRL_INTERMEDIARY BANK COUNTRY_Value",
  "CRL_INTERMEDIARY BANK SWIFT_Value",
  "CRL_LATEST SHIPMENT DATE_Value",
  "CRL_DISPATCH PORT_Value",
  "CRL_DELIVERY PORT_Value",
  "CRL_HS CODE_Value",
  "CRL_IMPORT LICENSE DETAILS_Value",
  "CRL_COUNTRY OF ORIGIN_Value",
  "CRL_INVOICE NO_Value",
  "CRL_INVOICE DATE_Value",
  "CRL_INVOICE VALUE_Value",
  "CRL_SPECIFIC REFERENCE FOR SWIFT FIELD 70/72_Value",
  "CRL_TREASURY REFERENCE NO_Value",
  "CRL_STANDARD DECLARATIONS AS PER PRODUCTS_Value",
  "CRL_TRANSACTION EVENT_Value",
  "CRL_CRL DATE_Value",
  "CRL_INCO TERM_Value",
  "CRL_THIRD PARTY EXPORTER NAME_Value",
  "CRL_THIRD PARTY EXPORTER COUNTRY_Value",
  "CRL_EXCHANGE RATE_Value",
  "CRL_APPLICANT SIGNATURE_Value",
  "CRL_CUSTOMER SIGNATURE_Value",
  "INVOICE_TYPE OF INVOICE - COMMERCIAL/PROFORMA/CUSTOMS_Value",
  "INVOICE_INVOICE DATE_Value",
  "INVOICE_INVOICE NO_Value",
  "INVOICE_BUYER NAME_Value",
  "INVOICE_BUYER ADDRESS_Value",
  "INVOICE_BUYER COUNTRY_Value",
  "INVOICE_SELLER NAME_Value",
  "INVOICE_SELLER ADDRESS_Value",
  "INVOICE_SELLER COUNTRY_Value",
  "INVOICE_INVOICE CURRENCY_Value",
  "INVOICE_INVOICE AMOUNT/VALUE_Value",
  "INVOICE_INVOICE AMOUNT/VALUE IN WORDS_Value",
  "INVOICE_BENEFICIARY ACCOUNT NO / IBAN_Value",
  "INVOICE_BENEFICIARY BANK_Value",
  "INVOICE_BENEFICIARY BANK ADDRESS_Value",
  "INVOICE_BENEFICIARY BANK SWIFT CODE / SORT CODE/ BSB / IFS CODE / ROUTING NO_Value",
  "INVOICE_Total Invoice Amount_Value",
  "INVOICE_Invoice Amount_Value",
  "INVOICE_Beneficiary Name_Value",
  "INVOICE_Beneficiary Address_Value",
  "INVOICE_DESCRIPTION OF GOODS_Value",
  "INVOICE_QUANTITY OF GOODS_Value",
  "INVOICE_PAYMENT TERMS_Value",
  "INVOICE_BENEFICIARY/SELLER\x27S SIGNATURE_Value",
  "INVOICE_APPLICANT/BUYER\x27S SIGNATURE_Value",
  "INVOICE_MODE OF REMITTANCE_Value",
  "INVOICE_MODE OF TRANSIT_Value",
  "INVOICE_INCO TERM_Value",
  "INVOICE_HS CODE_Value",
  "INVOICE_Intermediary Bank (Field 56)_Value",
  "INVOICE_INTERMEDIARY BANK NAME_Value",
  "INVOICE_INTERMEDIARY BANK ADDRESS_Value",
  "INVOICE_INTERMEDIARY BANK COUNTRY_Value",
  "INVOICE_Party Name ( Applicant )_Value",
  "INVOICE_Party Name ( Beneficiary )_Value",
  "INVOICE_Party Country ( Beneficiary )_Value",
  "INVOICE_Party Type ( Beneficiary Bank )_Value",
  "INVOICE_Party Name ( Beneficiary Bank )_Value",
  "INVOICE_Party Country ( Beneficiary Bank )_Value",
  "INVOICE_Drawee Address_Value",
  "INVOICE_PORT OF LOADING_Value",
  "INVOICE_PORT OF DISCHARGE_Value",
  "INVOICE_VESSEL TYPE_Value",
  "INVOICE_VESSEL NAME_Value",
  "INVOICE_THIRD PARTY EXPORTER NAME_Value",
  "INVOICE_THIRD PARTY EXPORTER COUNTRY_Value",
  "Processing_Status",
  "CLASSIFICATION_Confidence",
  "CLASSIFICATION_Reasoning"
]

/-- Section structure and field names of `config.DOCUMENT_FIELDS["CRL"]`.
Field descriptions are omitted: they are only interpolated into prompt
text, which this development (like the spec) treats as opaque. -/
def CRL_SECTIONS : List (String × List String) := [
  ("ApplicantInfo", ["APPLICANT NAME",
    "APPLICANT ADDRESS",
    "APPLICANT COUNTRY",
    "DEBIT ACCOUNT NO",
    "FEE ACCOUNT NO",
    "APPLICANT SIGNATURE",
    "CUSTOMER SIGNATURE"]),
  ("BeneficiaryInfo", ["BENEFICIARY NAME",
    "BENEFICIARY ADDRESS",
    "BENEFICIARY COUNTRY",
    "BENEFICIARY ACCOUNT NO / IBAN"]),
  ("BankInfo", ["BENEFICIARY BANK",
    "BENEFICIARY BANK ADDRESS",
    "BENEFICIARY BANK SWIFT CODE / SORT CODE/ BSB / IFS CODE",
    "INTERMEDIARY BANK NAME",
    "INTERMEDIARY BANK ADDRESS",
    "INTERMEDIARY BANK COUNTRY",
    "INTERMEDIARY BANK SWIFT"]),
  ("TransactionInfo", ["DATE & TIME OF RECEIPT OF DOCUMENT",
    "CUSTOMER REQUEST LETTER DATE",
    "REMITTANCE CURRENCY",
    "REMITTANCE AMOUNT",
    "CURRENCY AND AMOUNT OF REMITTANCE IN WORDS",
    "FB CHARGES",
    "TRANSACTION Product Code Selection",
    "TRANSACTION EVENT",
    "VALUE DATE",
    "EXCHANGE RATE",
    "TREASURY REFERENCE NO",
    "MODE OF REMITTANCE",
    "SPECIFIC REFERENCE FOR SWIFT FIELD 70/72"]),
  ("GoodsAndShippingInfo", ["DESCRIPTION OF GOODS",
    "TYPE OF GOODS",
    "INVOICE NO",
    "INVOICE DATE",
    "INVOICE VALUE",
    "HS CODE",
    "LATEST SHIPMENT DATE",
    "DISPATCH PORT",
    "DELIVERY PORT",
    "INCO TERM",
    "COUNTRY OF ORIGIN",
    "IMPORT LICENSE DETAILS",
    "THIRD PARTY EXPORTER NAME",
    "THIRD PARTY EXPORTER COUNTRY"]),
  ("Declarations", ["STANDARD DECLARATIONS AS PER PRODUCTS"])
]

/-- Section structure and field names of `config.DOCUMENT_FIELDS["INVOICE"]`.
Field descriptions are omitted: they are only interpolated into prompt
text, which this development (like the spec) treats as opaque. -/
def INVOICE_SECTIONS : List (String × List String) := [
  ("AllFields", ["TYPE OF INVOICE - COMMERCIAL/PROFORMA/CUSTOMS",
    "INVOICE DATE",
    "INVOICE NO",
    "BUYER NAME",
    "BUYER ADDRESS",
    "BUYER COUNTRY",
    "SELLER NAME",
    "SELLER ADDRESS",
    "SELLER COUNTRY",
    "INVOICE CURRENCY",
    "INVOICE AMOUNT/VALUE",
    "INVOICE AMOUNT/VALUE IN WORDS",
    "BENEFICIARY ACCOUNT NO / IBAN",
    "BENEFICIARY BANK",
    "BENEFICIARY BANK ADDRESS",
    "BENEFICIARY BANK SWIFT CODE / SORT CODE/ BSB / IFS CODE",
    "Total Invoice Amount",
    "Invoice Amount",
    "Beneficiary Name",
    "Beneficiary Address",
    "DESCRIPTION OF GOODS",
    "QUANTITY OF GOODS",
    "PAYMENT TERMS",
    "BENEFICIARY/SELLER\x27S SIGNATURE",
    "APPLICANT/BUYER\x27S SIGNATURE",
    "MODE OF REMITTANCE",
    "MODE OF TRANSIT",
    "INCO TERM",
    "HS CODE",
    "Intermediary Bank (Field 56)",
    "INTERMEDIARY BANK NAME",
    "INTERMEDIARY BANK ADDRESS",
    "INTERMEDIARY BANK COUNTRY",
    "Party Name ( Applicant )",
    "Party Name ( Beneficiary )",
    "Party Country ( Beneficiary )",
    "Party Type ( Beneficiary Bank )",
    "Party Name ( Beneficiary Bank )",
    "Party Country ( Beneficiary Bank )",
    "Drawee Address",
    "PORT OF LOADING",
    "PORT OF DISCHARGE",
    "VESSEL TYPE",
    "VESSEL NAME",
    "THIRD PARTY EXPORTER NAME",
    "THIRD PARTY EXPORTER COUNTRY"])
]

/-! ## schemas.py: FieldDetail and the dynamic extraction model

`schemas.py` lines 16-19 and 30-37.  `FieldDetail` is
`{value: Optional[Any], confidence: float (0..=1), reasoning: str}`; only
the string rendering of `value` ever reaches a result row, so it is
embedded as `Option String`; `confidence` is embedded as a rational.
Pydantic enforces only the `0 <= confidence <= 1` bounds. -/

structure FieldDetail where
  value : Option String
  confidence : ℚ
  reasoning : String
deriving DecidableEq, Repr

/-- The constraint pydantic validates on `FieldDetail` (`Field(ge=0.0, le=1.0)`). -/
def FieldDetail.valid (d : FieldDetail) : Prop :=
  0 ≤ d.confidence ∧ d.confidence ≤ 1

/-- `model_dump()` of a dynamic extraction model: every declared field name
mapped to an optional `FieldDetail` (absent fields default to `None`). -/
abbrev ExtractionResult : Type := List (String × Option FieldDetail)

/-- The two runtime shapes a `DOCUMENT_FIELDS[doc_type]` value can have in
Python: the flat `List[Dict]` that `processing.py` and
`schemas.create_extraction_model` are written against (their annotations
say `fields: List[Dict]`), and the section-keyed dict that `config.py`
actually stores since its restructuring.  Only the field names are kept:
descriptions never influence control flow. -/
inductive PyFieldsVal where
  | flatList (names : List String)
  | sectionDict (sections : List (String × List String))
deriving DecidableEq, Repr

/-- `config.DOCUMENT_FIELDS`: both document types carry the section-keyed
shape. -/
def DOCUMENT_FIELDS : List (String × PyFieldsVal) :=
  [("CRL", .sectionDict CRL_SECTIONS), ("INVOICE", .sectionDict INVOICE_SECTIONS)]

/-- `schemas.create_extraction_model` runs `for field in fields` and reads
`field['name']`.  Iterating the flat list yields the field dicts and
collects their names; iterating a non-empty dict yields its keys — plain
strings — and subscripting a `str` with `'name'` raises
`TypeError: string indices must be integers` (Python semantics of the
dynamic value). -/
def create_extraction_model_fields : PyFieldsVal → Except String (List String)
  | .flatList names => .ok names
  | .sectionDict sections =>
    if sections.isEmpty then .ok []
    else .error "TypeError: string indices must be integers"

/-! ## processing._extract_data_from_document — missing fields, re-ask merge

`processing.py` lines 179-219.  After a successful initial parse the code
collects the expected fields whose whole `FieldDetail` is `None`, re-asks
once for exactly those, and merges: every key of the re-ask dump whose
value is not `None` overwrites the existing entry (`extraction_result[k] =
v`); keys whose value is `None` are skipped.  The status attached is
`"Success"` when nothing was missing before the re-ask, otherwise
`"Partial Success (After Re-ask)"`. -/

/-- Python `dict.get(k)` on an `ExtractionResult`: absent key and stored
`None` both come back as `None`. -/
def joinLookup (m : ExtractionResult) (k : String) : Option FieldDetail :=
  ((m : List (String × Option FieldDetail)).lookup k).join

/-- Python dict assignment `m[k] = v`: overwrite in place, else append. -/
def assocSet (m : ExtractionResult) (k : String) (v : Option FieldDetail) :
    ExtractionResult :=
  match m with
  | [] => [(k, v)]
  | kv :: rest =>
    if kv.1 = k then (k, v) :: rest else kv :: assocSet rest k v

/-- Step 2 of `_extract_data_from_document`: expected fields whose entry is
`None` in the initial result, in result order. -/
def missingFields (extraction : ExtractionResult) (expected : List String) :
    List String :=
  ((extraction : List (String × Option FieldDetail)).filter
      (fun kv => kv.2.isNone && decide (kv.1 ∈ expected))).map (fun kv => kv.1)

/-- The merge loop of the targeted re-ask (lines 212-214). -/
def mergeReask (extraction : ExtractionResult) (reask : ExtractionResult) :
    ExtractionResult :=
  (reask : List (String × Option FieldDetail)).foldl
    (fun acc kv =>
      match kv.2 with
      | some d => assocSet acc kv.1 (some d)
      | none => acc) extraction

/-- Steps 2-3 plus the status line of `_extract_data_from_document`, given
the parsed initial result and (when a re-ask happens) the parsed re-ask
result — `none` standing for a re-ask whose parse returned an error dict,
in which case the code proceeds with the incomplete data. -/
def finishExtraction (expected : List String) (initial : ExtractionResult)
    (reaskParse : Option ExtractionResult) : ExtractionResult × String :=
  let missing := missingFields initial expected
  if missing.isEmpty then (initial, "Success")
  else
    let merged :=
      match reaskParse with
      | some r => mergeReask initial r
      | none => initial
    (merged, "Partial Success (After Re-ask)")

/-! ## processing.process_case_group — result-row assembly

`processing.py` lines 222-264. -/

inductive Cell where
  | null
  | str (s : String)
  | num (q : ℚ)
deriving DecidableEq, Repr

abbrev Row : Type := List (String × Cell)

/-- The three columns written for one field (lines 252-263): when the
field's `FieldDetail` dict is present (hence non-empty, hence truthy) its
value/confidence/reasoning are copied — `None` values stay null via the
`str(...) if ... is not None else None` guard; when the field is absent the
code writes an explicit null value, confidence `0.0` and a fixed reasoning
message. -/
def fieldColumns (classifiedType fieldName : String)
    (fieldData : Option FieldDetail) : List (String × Cell) :=
  let pfx := classifiedType ++ "_" ++ fieldName
  match fieldData with
  | some d =>
    [(pfx ++ "_Value", match d.value with
        | some v => Cell.str v
        | none => Cell.null),
     (pfx ++ "_Confidence", Cell.num d.confidence),
     (pfx ++ "_Reasoning", Cell.str d.reasoning)]
  | none =>
    [(pfx ++ "_Value", Cell.null),
     (pfx ++ "_Confidence", Cell.num 0),
     (pfx ++ "_Reasoning", Cell.str "Field was not returned by the LLM.")]

/-- The per-field loop of lines 252-263 over the classified type's field
names (the row keys produced are pairwise fresh, so appending matches the
Python dict assignments). -/
def buildExtractionRowFields (classifiedType : String) (fieldNames : List String)
    (extraction : ExtractionResult) : Row :=
  fieldNames.foldl
    (fun row fn => row ++ fieldColumns classifiedType fn (joinLookup extraction fn))
    []

/-- Outcome of `_classify_document_type` as seen by `process_case_group`:
either the parsed classification dump or an error dict. -/
inductive ClassOutcome where
  | ok (classified_type : String) (confidence : ℚ) (reasoning : String)
  | errorDict (msg : String)
deriving DecidableEq, Repr

/-- `process_case_group`, with the model interactions abstracted into the
classification outcome, the initial-extraction parse outcome (after any
LLM-based JSON correction) and the optional re-ask parse outcome.  The
`Except.error` result embeds an uncaught Python exception escaping the
coroutine. -/
def process_case_group (caseId baseName : String) (classOutcome : ClassOutcome)
    (initialParse : Except String ExtractionResult)
    (reaskParse : Option ExtractionResult) : Except String Row :=
  let classCells : List (String × Cell) :=
    match classOutcome with
    | .ok t c r =>
      [("CASE_ID", .str caseId), ("GROUP_Basename", .str baseName),
       ("CLASSIFIED_Type", .str t), ("CLASSIFICATION_Confidence", .num c),
       ("CLASSIFICATION_Reasoning", .str r)]
    | .errorDict _ =>
      [("CASE_ID", .str caseId), ("GROUP_Basename", .str baseName),
       ("CLASSIFIED_Type", .null), ("CLASSIFICATION_Confidence", .null),
       ("CLASSIFICATION_Reasoning", .null)]
  match classOutcome with
  | .errorDict msg =>
    .ok (classCells ++ [("Processing_Status", .str ("Classification Failed: " ++ msg))])
  | .ok t _ _ =>
    match (DOCUMENT_FIELDS.lookup t : Option PyFieldsVal) with
    | none =>
      let status :=
        if t = "UNKNOWN" then "Classified as UNKNOWN"
        else "Classification Failed: Unsupported Type"
      .ok (classCells ++ [("Processing_Status", .str status)])
    | some fieldsVal =>
      match create_extraction_model_fields fieldsVal with
      | .error e => .error e
      | .ok names =>
        match initialParse with
        | .error msg =>
          .ok (classCells ++ [("Processing_Status", .str ("Extraction Failed: " ++ msg))])
        | .ok initial =>
          let res := finishExtraction names initial reaskParse
          .ok (classCells ++ [("Processing_Status", .str res.2)] ++
            buildExtractionRowFields t names res.1)

/-! ## processing._append_to_csv

`processing.py` lines 26-48.  Every column of `column_order` missing from
the frame is added as `None`; the frame is then reindexed to the columns of
`column_order` that exist — after the fill loop that is all of them, in
order — so the emitted record has exactly the configured columns and any
row key outside the order is dropped. -/

def _append_to_csv_columns (row : Row) (columnOrder : List String) : Row :=
  columnOrder.map (fun c => (c, ((row : List (String × Cell)).lookup c).getD Cell.null))

/-! ## schemas.JobStatus and the job loop

`schemas.py` lines 6-14, `main.py` lines 104-127 and
`processing.process_zip_file_async` lines 296-325.  One task is created per
discovered group, so the task count equals `total_groups`; `as_completed`
yields outcomes in an arbitrary completion order, embedded as the order of
the `outcomes` list.  A successful task appends its row and updates
`groups_processed`, `progress_percent` and `details`; a task that raised
is logged and only `groups_processed` is incremented. -/

structure JobStatus where
  job_id : String
  status : String
  details : String
  total_groups : Nat
  groups_processed : Nat
  progress_percent : ℚ
  result_path : Option String
deriving DecidableEq, Repr

/-- `main.create_upload_file`: the record inserted at job submission. -/
def initJob (jobId : String) : JobStatus :=
  ⟨jobId, "Queued", "Job has been queued for processing.", 0, 0, 0, none⟩

/-- Lines 300-302: status flips to Processing and the group total is set
before any task completes. -/
def startJob (job : JobStatus) (total : Nat) : JobStatus :=
  { job with
    status := "Processing"
    total_groups := total
    details := "Found " ++ toString total ++ " document groups to process." }

/-- One iteration of the `as_completed` loop (lines 312-325): the appended
row, if any, and the updated job record. -/
def stepJob (job : JobStatus) (outcome : Except String Row) :
    JobStatus × Option Row :=
  match outcome with
  | .ok row =>
    let gp := job.groups_processed + 1
    let basename :=
      match (row : List (String × Cell)).lookup "GROUP_Basename" with
      | some (.str b) => b
      | _ => "N/A"
    ({ job with
        groups_processed := gp
        progress_percent :=
          if job.total_groups > 0 then
            (gp : ℚ) / (job.total_groups : ℚ) * 100
          else 0
        details := "Processed " ++ toString gp ++ "/" ++
          toString job.total_groups ++ ": Group " ++ basename },
      some row)
  | .error _ =>
    ({ job with groups_processed := job.groups_processed + 1 }, none)

/-- Line 298 of `processing.py`: the group total is the number of groups
discovered across all case folders (each folder given as its name and the
names of the files it contains). -/
def process_zip_total_groups (caseFolders : List (String × List String)) : Nat :=
  (caseFolders.map (fun cf => (_group_files_by_base_name cf.2).length)).sum

/-- Lines 305-309: one `process_case_group` task is created per discovered
group — `(case_id, base_name, document_files)`. -/
def jobTasks (caseFolders : List (String × List String)) :
    List (String × String × List PageFile) :=
  (caseFolders.map (fun cf =>
    (_group_files_by_base_name cf.2).map (fun g => (cf.1, g.1, g.2)))).flatten

/-- The whole completion loop: final job state and the rows appended to the
CSV, in completion order. -/
def runJobLoop (job : JobStatus) (outcomes : List (Except String Row)) :
    JobStatus × List Row :=
  match outcomes with
  | [] => (job, [])
  | o :: rest =>
    let st := stepJob job o
    let r := runJobLoop st.1 rest
    (r.1, st.2.toList ++ r.2)

/-! # Supporting lemmas -/

theorem insertPage_chain (pf : PageFile) (l : List PageFile)
    (h : pagesNonDecreasing l) : pagesNonDecreasing (insertPage pf l) := by
  induction l with
  | nil => simp [insertPage, pagesNonDecreasing]
  | cons q qs ih =>
    unfold insertPage
    by_cases hle : pf.page ≤ q.page
    · simpa [hle, pagesNonDecreasing] using And.intro hle h
    · simp only [hle, if_false]
      have hq : q.page ≤ pf.page := le_of_not_le hle
      have htail : pagesNonDecreasing qs := (List.chain'_cons'.mp h).2
      have hrec := ih htail
      rw [pagesNonDecreasing, List.chain'_cons']
      refine ⟨?_, hrec⟩
      intro y hy
      cases qs with
      | nil => simp [insertPage] at hy; subst hy; exact hq
      | cons r rs =>
        unfold insertPage at hy
        by_cases hle2 : pf.page ≤ r.page
        · simp [hle2] at hy; subst hy; exact hq
        · simp [hle2] at hy
          subst hy
          exact (List.chain'_cons.mp h).1

theorem sortByPage_nonDecreasing (l : List PageFile) :
    pagesNonDecreasing (sortByPage l) := by
  induction l with
  | nil => simp [sortByPage, pagesNonDecreasing]
  | cons pf rest ih => exact insertPage_chain pf _ ih

theorem countP_set (p : TaskPhase → Bool) (l : List TaskPhase) (i : Nat)
    (a b : TaskPhase) (h : l.get? i = some a) :
    (l.set i b).countP p + (if p a then 1 else 0) =
      l.countP p + (if p b then 1 else 0) := by
  induction l generalizing i with
  | nil => simp at h
  | cons x xs ih =>
    cases i with
    | zero =>
      simp only [List.get?] at h
      injection h with h
      subst h
      simp only [List.set, List.countP_cons]
      by_cases hpx : p x <;> by_cases hpb : p b <;> simp [hpx, hpb]
    | succ j =>
      simp only [List.get?] at h
      have := ih j h
      simp [List.set, List.countP_cons]
      by_cases hpx : p x <;> simp [hpx] <;> omega

theorem inFlight_replicate_waiting (n : Nat) :
    inFlightCount (List.replicate n .waiting) = 0 := by
  induction n with
  | zero => simp [inFlightCount]
  | succ m ih =>
    simp only [List.replicate, inFlightCount, List.countP_cons] at *
    simp [ih]

/-- One step preserves the semaphore ledger. -/
theorem gateway_step_ledger {limit : Nat} {s s' : GatewayState}
    (hstep : GatewayStep s s')
    (hinv : s.sem + inFlightCount s.tasks = limit) :
    s'.sem + inFlightCount s'.tasks = limit := by
  cases hstep with
  | acquire i hw hs =>
    have hcount := countP_set (fun t => t = TaskPhase.inFlight) s.tasks i
      .waiting .inFlight hw
    simp only [inFlightCount] at hinv ⊢
    simp at hcount
    omega
  | release i hf =>
    have hcount := countP_set (fun t => t = TaskPhase.inFlight) s.tasks i
      .inFlight .done hf
    simp only [inFlightCount] at hinv ⊢
    simp at hcount
    omega

/-- The semaphore ledger: free slots plus in-flight calls always add up to
the configured limit. -/
theorem gateway_ledger {limit n : Nat} {s : GatewayState}
    (h : GatewayReachable limit n s) :
    s.sem + inFlightCount s.tasks = limit := by
  induction h with
  | refl => simpa [gatewayInit] using inFlight_replicate_waiting n
  | tail _ hstep ih => exact gateway_step_ledger hstep ih

/-! # Claim theorems -/


/-- C5: for any input ordering of filenames in a case, every stored
DocumentGroup's page list — and the page sequence `_prepare_document_files`
submits to the Model Gateway — is non-decreasing by parsed page index; and
the files `Invoice 1.pdf`, `Invoice 2.pdf` of case `CaseA` (in either
discovery order) form one group with base name `Invoice` and pages `[1, 2]`
in that order. -/
theorem c5_page_order_and_scenario_a :
    (∀ (files : List String) (b : String) (l : List PageFile),
        (b, l) ∈ _group_files_by_base_name files →
        pagesNonDecreasing l ∧ pagesNonDecreasing (_prepare_document_files l)) ∧
    _group_files_by_base_name ["Invoice 1.pdf", "Invoice 2.pdf"] =
      [("Invoice", [⟨"Invoice 1.pdf", 1⟩, ⟨"Invoice 2.pdf", 2⟩])] ∧
    _group_files_by_base_name ["Invoice 2.pdf", "Invoice 1.pdf"] =
      [("Invoice", [⟨"Invoice 1.pdf", 1⟩, ⟨"Invoice 2.pdf", 2⟩])] := by
  refine ⟨?_, by decide, by decide⟩
  intro files b l hmem
  simp only [_group_files_by_base_name, List.mem_map] at hmem
  obtain ⟨g, _, heq⟩ := hmem
  have hl : l = sortByPage g.2 := by
    have := congrArg Prod.snd heq
    simpa using this.symm
  subst hl
  exact ⟨sortByPage_nonDecreasing g.2, sortByPage_nonDecreasing _⟩

/-- Witness for C5 at the concrete Scenario A group. -/
theorem c5_witness :
    pagesNonDecreasing [(⟨"Invoice 1.pdf", 1⟩ : PageFile), ⟨"Invoice 2.pdf", 2⟩] ∧
    pagesNonDecreasing
      (_prepare_document_files [⟨"Invoice 1.pdf", 1⟩, ⟨"Invoice 2.pdf", 2⟩]) :=
  c5_page_order_and_scenario_a.1 ["Invoice 1.pdf", "Invoice 2.pdf"] "Invoice"
    [⟨"Invoice 1.pdf", 1⟩, ⟨"Invoice 2.pdf", 2⟩] (by decide)

/-- C9: in every state reachable by the admission-semaphore transition
system the number of in-flight model calls never exceeds the semaphore
size, and from a state with no free slot the only enabled steps are
releases — no waiting caller can start a call until a slot is freed. -/
theorem c9_semaphore_bound_and_blocking :
    (∀ (limit n : Nat) (s : GatewayState),
        GatewayReachable limit n s → inFlightCount s.tasks ≤ limit) ∧
    (∀ (s s' : GatewayState), s.sem = 0 → GatewayStep s s' →
        ∃ i, s.tasks.get? i = some .inFlight ∧
          s' = ⟨s.sem + 1, s.tasks.set i .done⟩) := by
  constructor
  · intro limit n s h
    have := gateway_ledger h
    omega
  · intro s s' h0 hstep
    cases hstep with
    | acquire i hw hs => omega
    | release i hf => exact ⟨i, hf, rfl⟩

/-- Witness for C9: with the configured limit `API_CONCURRENCY_LIMIT = 1`
and one task, the state reached after the task acquires the slot respects
the bound, and a second state change from a zero-count semaphore is a
release. -/
theorem c9_witness :
    inFlightCount (GatewayState.mk 0 [TaskPhase.inFlight]).tasks ≤
      API_CONCURRENCY_LIMIT ∧
    ∃ i, (GatewayState.mk 0 [TaskPhase.inFlight]).tasks.get? i =
        some TaskPhase.inFlight ∧
      (GatewayState.mk 1 [TaskPhase.done] : GatewayState) =
        ⟨(GatewayState.mk 0 [TaskPhase.inFlight]).sem + 1,
          (GatewayState.mk 0 [TaskPhase.inFlight]).tasks.set i .done⟩ := by
  constructor
  · exact c9_semaphore_bound_and_blocking.1 API_CONCURRENCY_LIMIT 1 _
      (Relation.ReflTransGen.single
        (GatewayStep.acquire (gatewayInit API_CONCURRENCY_LIMIT 1) 0 (by decide)
          (by decide)))
  · exact c9_semaphore_bound_and_blocking.2 ⟨0, [.inFlight]⟩ ⟨1, [.done]⟩ rfl
      (GatewayStep.release _ 0 (by decide))

/-- C8 counterexample: the text `T` below is the sanitizer's own output on
`S` and is valid JSON, yet sanitizing it twice differs from sanitizing it
once — the comma-stripping pass rewrites comma-bracket sequences inside
string literals and can create a new match for the next pass. -/
theorem c8_counterexample :
    _sanitize_llm_output "\x7b\x22a\x22:\x22,,,\x7d\x22\x7d" =
      "\x7b\x22a\x22:\x22,,\x7d\x22\x7d" ∧
    isValidJson "\x7b\x22a\x22:\x22,,\x7d\x22\x7d" = true ∧
    _sanitize_llm_output (_sanitize_llm_output "\x7b\x22a\x22:\x22,,\x7d\x22\x7d") ≠
      _sanitize_llm_output "\x7b\x22a\x22:\x22,,\x7d\x22\x7d" := by
  refine ⟨by decide, by decide, by decide⟩

/-- C6 counterexample: a plain `400 Bad Request` — a 4xx other than
rate-limit, which the claim says terminates immediately with a typed error
and is never retried — is in fact retried: with the default budget the
call returns the second attempt's success instead of an error. -/
theorem c6_counterexample :
    call_llm_with_parsing (fun _ => (none : Option Nat)) false
        (fun i => if i = 0 then .statusError 400 "Bad Request" else .success 7) =
      .parsed 7 ∧
    (400 : Nat) / 100 = 4 ∧ (400 : Nat) ≠ 429 := by
  refine ⟨by decide, by decide, by decide⟩

/-- C6 amended: the gateway retries connection errors and every
`APIStatusError` — any non-success HTTP status, 4xx included — up to the
configured attempt count, while Pydantic validation failures (which go
through programmatic sanitization) and unexpected exceptions return
immediately and are never retried. -/
theorem c6_retry_policy :
    (∀ (V : Type) (parse : String → Option V) (n : Nat)
        (outcomes : Nat → AttemptOutcome V) (i c : Nat) (m : String),
        i + 1 < n → outcomes i = .statusError c m →
        runCallFrom parse n outcomes i = runCallFrom parse n outcomes (i + 1)) ∧
    (∀ (V : Type) (parse : String → Option V) (n : Nat)
        (outcomes : Nat → AttemptOutcome V) (i : Nat) (m : String),
        i + 1 < n → outcomes i = .connError m →
        runCallFrom parse n outcomes i = runCallFrom parse n outcomes (i + 1)) ∧
    (∀ (V : Type) (parse : String → Option V) (n : Nat)
        (outcomes : Nat → AttemptOutcome V) (i : Nat) (raw : String),
        i < n → outcomes i = .validationError raw →
        runCallFrom parse n outcomes i =
          (match parse (_sanitize_llm_output raw) with
           | some v => .parsed v
           | none =>
             .errorDict ("Schema Validation Error after sanitization: " ++ raw))) ∧
    (∀ (V : Type) (parse : String → Option V) (n : Nat)
        (outcomes : Nat → AttemptOutcome V) (i : Nat) (m : String),
        i < n → outcomes i = .appError m →
        runCallFrom parse n outcomes i =
          .errorDict ("Application Error: " ++ m)) ∧
    (∀ (V : Type) (parse : String → Option V) (n : Nat)
        (outcomes : Nat → AttemptOutcome V),
        runCallFrom parse n outcomes n =
          .errorDict "All retry attempts failed.") := by
  refine ⟨?_, ?_, ?_, ?_, ?_⟩
  · intro V parse n outcomes i c m hlt h
    unfold runCallFrom
    have h1 : n - i = (n - (i + 1)) + 1 := by omega
    rw [h1]
    simp only [runCallSteps]
    rw [h]
    have hne : ¬ (i = n - 1) := by omega
    simp [hne]
  · intro V parse n outcomes i m hlt h
    unfold runCallFrom
    have h1 : n - i = (n - (i + 1)) + 1 := by omega
    rw [h1]
    simp only [runCallSteps]
    rw [h]
    have hne : ¬ (i = n - 1) := by omega
    simp [hne]
  · intro V parse n outcomes i raw hlt h
    unfold runCallFrom
    have h1 : n - i = (n - i - 1) + 1 := by omega
    rw [h1]
    simp only [runCallSteps]
    rw [h]
  · intro V parse n outcomes i m hlt h
    unfold runCallFrom
    have h1 : n - i = (n - i - 1) + 1 := by omega
    rw [h1]
    simp only [runCallSteps]
    rw [h]
  · intro V parse n outcomes
    unfold runCallFrom
    simp [runCallSteps]

/-- Witness for C6 amended, at concrete outcomes. -/
theorem c6_retry_policy_witness :
    (runCallFrom (fun _ => (none : Option Nat)) 3
        (fun _ => .statusError 503 "Service Unavailable") 0 =
      runCallFrom (fun _ => (none : Option Nat)) 3
        (fun _ => .statusError 503 "Service Unavailable") 1) ∧
    (runCallFrom (fun _ => (none : Option Nat)) 3
        (fun _ => .connError "connection reset") 0 =
      runCallFrom (fun _ => (none : Option Nat)) 3
        (fun _ => .connError "connection reset") 1) ∧
    (runCallFrom (fun _ => (none : Option Nat)) 3
        (fun _ => .validationError "not json") 0 =
      (match (fun (_ : String) => (none : Option Nat))
          (_sanitize_llm_output "not json") with
       | some v => .parsed v
       | none =>
         .errorDict ("Schema Validation Error after sanitization: " ++ "not json"))) ∧
    (runCallFrom (fun _ => (none : Option Nat)) 3
        (fun _ => .appError "boom") 0 =
      .errorDict ("Application Error: " ++ "boom")) ∧
    (runCallFrom (fun _ => (none : Option Nat)) 3
        (fun _ => .statusError 503 "Service Unavailable") 3 =
      .errorDict "All retry attempts failed.") :=
  ⟨c6_retry_policy.1 Nat _ 3 _ 0 503 "Service Unavailable" (by decide) rfl,
   c6_retry_policy.2.1 Nat _ 3 _ 0 "connection reset" (by decide) rfl,
   c6_retry_policy.2.2.1 Nat _ 3 _ 0 "not json" (by decide) rfl,
   c6_retry_policy.2.2.2.1 Nat _ 3 _ 0 "boom" (by decide) rfl,
   c6_retry_policy.2.2.2.2 Nat _ 3 _⟩

theorem string_mk_toList (t : String) : String.mk t.toList = t := by
  cases t
  rfl

theorem pyFindIdx_cons_self (c : Char) (rest : List Char) :
    pyFindIdx (c :: rest) c = some 0 := by
  simp [pyFindIdx]

theorem rfindIdx_of_getLast (cs : List Char) (c : Char)
    (h : cs.getLast? = some c) : rfindIdx cs c = some (cs.length - 1) := by
  cases hrev : cs.reverse with
  | nil =>
    have : cs = [] := by simpa using congrArg List.reverse hrev
    subst this
    simp at h
  | cons x xs =>
    have hx : x = c := by
      have hh : cs.reverse.head? = some c := by
        rw [List.head?_reverse]
        exact h
      rw [hrev] at hh
      simpa using hh
    subst hx
    simp [rfindIdx, hrev, pyFindIdx_cons_self]

/-- C8 amended: the sanitizer is the identity — hence applying it twice
equals applying it once — on any text that starts with an opening brace,
ends with a closing brace, and on which the comma-stripping pass is a
no-op (no comma standing, up to whitespace, before a closing
brace/bracket); sanitized valid JSON can violate the last condition only
inside a string literal, and there idempotence genuinely fails. -/
theorem c8_sanitize_idempotent_on_clean (t : String)
    (hhead : t.toList.head? = some lbraceChar)
    (hlast : t.toList.getLast? = some rbraceChar)
    (hstrip : stripTrailingCommas t.toList = t.toList) :
    _sanitize_llm_output t = t ∧
    _sanitize_llm_output (_sanitize_llm_output t) = _sanitize_llm_output t := by
  have hne : t.toList ≠ [] := by
    intro hc
    rw [hc] at hhead
    simp at hhead
  have hfind : pyFindIdx t.toList lbraceChar = some 0 := by
    cases hc : t.toList with
    | nil => exact absurd hc hne
    | cons x xs =>
      have hx : x = lbraceChar := by
        rw [hc] at hhead
        simpa using hhead
      subst hx
      exact pyFindIdx_cons_self _ _
  have hrfind : rfindIdx t.toList rbraceChar = some (t.toList.length - 1) :=
    rfindIdx_of_getLast _ _ hlast
  have hfix : _sanitize_llm_output t = t := by
    simp only [_sanitize_llm_output]
    rw [hfind, hrfind]
    have hnotgt : ¬ (0 > t.toList.length - 1) := Nat.not_lt_zero _
    simp only [hnotgt, if_false, List.drop_zero, Nat.sub_zero]
    have harith : t.toList.length - 1 + 1 = t.toList.length := by
      have : 1 ≤ t.toList.length := by
        cases hc : t.toList with
        | nil => exact absurd hc hne
        | cons x xs => simp
      omega
    rw [harith, List.take_length, hstrip, string_mk_toList]
  refine ⟨hfix, ?_⟩
  rw [hfix]
  exact hfix

/-- Witness for C8 amended at a clean sanitized JSON object. -/
theorem c8_sanitize_idempotent_witness :
    _sanitize_llm_output "\x7b\x22a\x22:1\x7d" = "\x7b\x22a\x22:1\x7d" ∧
    _sanitize_llm_output (_sanitize_llm_output "\x7b\x22a\x22:1\x7d") =
      _sanitize_llm_output "\x7b\x22a\x22:1\x7d" :=
  c8_sanitize_idempotent_on_clean "\x7b\x22a\x22:1\x7d" (by decide) (by decide)
    (by decide)

/-- C2 counterexample: a `FieldDetail` that pydantic accepts (confidence
within bounds) with a null value and confidence `0.9` flows into the result
row unchanged: the emitted value column is null while the confidence column
is `0.9`, refuting `value is null ⇔ confidence == 0.0`. -/
theorem c2_counterexample :
    FieldDetail.valid ⟨none, 9/10, "value seen but unreadable"⟩ ∧
    fieldColumns "CRL" "HS CODE" (some ⟨none, 9/10, "value seen but unreadable"⟩) =
      [("CRL_HS CODE_Value", Cell.null),
       ("CRL_HS CODE_Confidence", Cell.num (9/10)),
       ("CRL_HS CODE_Reasoning", Cell.str "value seen but unreadable")] ∧
    Cell.num (9/10) ≠ Cell.num 0 := by
  refine ⟨⟨by norm_num, by norm_num⟩, by rfl, ?_⟩
  intro h
  injection h with h2
  norm_num at h2

/-- C2 amended: the null-implies-zero link holds exactly for fields the
model did not return (the code then writes value null, confidence `0.0`);
for a returned `FieldDetail` the emitted confidence is whatever the model
reported, constrained only to the pydantic bounds `0 ≤ confidence ≤ 1` —
in particular a null value may carry a non-zero confidence. -/
theorem c2_confidence_policy :
    (∀ ct f : String,
        fieldColumns ct f none =
          [(ct ++ "_" ++ f ++ "_Value", Cell.null),
           (ct ++ "_" ++ f ++ "_Confidence", Cell.num 0),
           (ct ++ "_" ++ f ++ "_Reasoning",
             Cell.str "Field was not returned by the LLM.")]) ∧
    (∀ (ct f : String) (d : FieldDetail), FieldDetail.valid d → d.value = none →
        fieldColumns ct f (some d) =
          [(ct ++ "_" ++ f ++ "_Value", Cell.null),
           (ct ++ "_" ++ f ++ "_Confidence", Cell.num d.confidence),
           (ct ++ "_" ++ f ++ "_Reasoning", Cell.str d.reasoning)] ∧
        0 ≤ d.confidence ∧ d.confidence ≤ 1) := by
  constructor
  · intro ct f
    rfl
  · intro ct f d hvalid hval
    refine ⟨?_, hvalid.1, hvalid.2⟩
    simp [fieldColumns, hval]

/-- Witness for C2 amended. -/
theorem c2_confidence_policy_witness :
    fieldColumns "CRL" "HS CODE" (some ⟨none, 1/2, "partly visible"⟩) =
      [("CRL_HS CODE_Value", Cell.null),
       ("CRL_HS CODE_Confidence", Cell.num ((⟨none, 1/2, "partly visible"⟩ : FieldDetail).confidence)),
       ("CRL_HS CODE_Reasoning", Cell.str ((⟨none, 1/2, "partly visible"⟩ : FieldDetail).reasoning))] ∧
    0 ≤ ((⟨none, 1/2, "partly visible"⟩ : FieldDetail)).confidence ∧
    ((⟨none, 1/2, "partly visible"⟩ : FieldDetail)).confidence ≤ 1 :=
  c2_confidence_policy.2 "CRL" "HS CODE" ⟨none, 1/2, "partly visible"⟩
    ⟨by norm_num, by norm_num⟩ rfl

theorem assocSet_lookup_ne (m : ExtractionResult) (k k' : String)
    (v : Option FieldDetail) (h : k' ≠ k) :
    (assocSet m k v).lookup k' = m.lookup k' := by
  have hb : (k' == k) = false := by simp [beq_iff_eq, h]
  induction m with
  | nil => simp [assocSet, List.lookup, hb]
  | cons kv rest ih =>
    rcases kv with ⟨k0, v0⟩
    by_cases hk : k0 = k
    · subst hk
      simp [assocSet, List.lookup, hb]
    · simp only [assocSet, hk, if_false, List.lookup]
      by_cases hk' : k' = k0
      · have : (k' == k0) = true := by simp [beq_iff_eq, hk']
        simp [this]
      · have : (k' == k0) = false := by simp [beq_iff_eq, hk']
        simp [this, ih]

theorem assocSet_lookup_self (m : ExtractionResult) (k : String)
    (v : Option FieldDetail) :
    (assocSet m k v).lookup k = some v := by
  induction m with
  | nil => simp [assocSet, List.lookup]
  | cons kv rest ih =>
    by_cases hk : kv.1 = k
    · simp [assocSet, hk, List.lookup]
    · simp only [assocSet, hk, if_false, List.lookup]
      have : (k == kv.1) = false := by
        simp only [beq_eq_false_iff_ne, ne_eq]
        intro hc; exact hk hc.symm
      simp [this, ih]

theorem mergeReask_lookup_of_not_mem (r init : ExtractionResult) (f : String)
    (h : ∀ d : FieldDetail, (f, some d) ∉ r) :
    (mergeReask init r).lookup f = init.lookup f := by
  induction r generalizing init with
  | nil => simp [mergeReask]
  | cons kv rest ih =>
    rcases kv with ⟨k0, v0⟩
    have hrest : ∀ d : FieldDetail, (f, some d) ∉ rest := by
      intro d hd
      exact h d (List.mem_cons_of_mem _ hd)
    cases v0 with
    | none =>
      simp only [mergeReask, List.foldl_cons]
      exact ih init hrest
    | some d =>
      have hk : k0 ≠ f := by
        intro hc
        exact h d (by rw [hc]; exact List.mem_cons_self _ _)
      simp only [mergeReask, List.foldl_cons]
      have hrec := ih (assocSet init k0 (some d)) hrest
      simp only [mergeReask] at hrec
      rw [hrec]
      exact assocSet_lookup_ne init k0 f (some d) (fun hc => hk hc.symm)

theorem missingFields_cons (k0 : String) (v0 : Option FieldDetail)
    (rest : ExtractionResult) (expected : List String) :
    missingFields ((k0, v0) :: rest) expected =
      (if v0.isNone ∧ k0 ∈ expected then [k0] else []) ++
        missingFields rest expected := by
  by_cases hn : v0.isNone = true
  · by_cases hm : k0 ∈ expected
    · simp [missingFields, List.filter, hn, hm]
    · simp [missingFields, List.filter, hn, hm]
  · simp only [Bool.not_eq_true] at hn
    simp [missingFields, List.filter, hn]

theorem mem_missingFields (initial : ExtractionResult) (expected : List String)
    (f : String) (hl : initial.lookup f = some none) (hf : f ∈ expected) :
    f ∈ missingFields initial expected := by
  induction initial with
  | nil => simp [List.lookup] at hl
  | cons kv rest ih =>
    rcases kv with ⟨k0, v0⟩
    rw [missingFields_cons]
    by_cases hk : f = k0
    · subst hk
      have hb : (f == f) = true := by simp
      simp [List.lookup, hb] at hl
      subst hl
      simp [hf]
    · have hb : (f == k0) = false := by simp [beq_iff_eq, hk]
      simp [List.lookup, hb] at hl
      exact List.mem_append_right _ (ih hl)

/-- C3 counterexample: both `FieldDetail`s are pydantic-valid; the field
already holds the non-null value `x` scored `0.9`, yet merging a re-ask
that returns the non-null value `y` scored `0.1` replaces it — the merge
overwrites a non-null earlier value and keeps the lower-confidence result,
refuting both halves of the claim. -/
theorem c3_counterexample :
    FieldDetail.valid ⟨some "x", 9/10, "r1"⟩ ∧
    FieldDetail.valid ⟨some "y", 1/10, "r2"⟩ ∧
    mergeReask [("A", some ⟨some "x", 9/10, "r1"⟩)]
        [("A", some ⟨some "y", 1/10, "r2"⟩)] =
      [("A", some ⟨some "y", 1/10, "r2"⟩)] ∧
    ((1 : ℚ)/10 < 9/10) := by
  refine ⟨⟨by norm_num, by norm_num⟩, ⟨by norm_num, by norm_num⟩, by rfl, by norm_num⟩

/-- C3 amended: a re-ask entry returning null (or a field absent from the
re-ask result) never erases the existing value; but a re-ask entry
carrying a non-null `FieldDetail` always overwrites the existing entry —
last write wins, with no confidence comparison. -/
theorem c3_merge_policy :
    (∀ (init r : ExtractionResult) (f : String),
        (∀ d : FieldDetail, (f, some d) ∉ r) →
        (mergeReask init r).lookup f = init.lookup f) ∧
    (∀ (init r2 : ExtractionResult) (f : String) (d : FieldDetail),
        (∀ d2 : FieldDetail, (f, some d2) ∉ r2) →
        (mergeReask init ((f, some d) :: r2)).lookup f = some (some d)) := by
  constructor
  · intro init r f h
    exact mergeReask_lookup_of_not_mem r init f h
  · intro init r2 f d h
    simp only [mergeReask, List.foldl_cons]
    have hrec := mergeReask_lookup_of_not_mem r2 (assocSet init f (some d)) f h
    simp only [mergeReask] at hrec
    rw [hrec]
    exact assocSet_lookup_self init f (some d)

/-- Witness for C3 amended. -/
theorem c3_merge_policy_witness :
    (mergeReask [("A", some ⟨some "x", 9/10, "r1"⟩)] [("A", none)]).lookup "A" =
      ([("A", some (⟨some "x", 9/10, "r1"⟩ : FieldDetail))] : ExtractionResult).lookup "A" ∧
    (mergeReask [("A", some ⟨some "x", 9/10, "r1"⟩)]
        [("A", some ⟨some "y", 1/10, "r2"⟩)]).lookup "A" =
      some (some ⟨some "y", 1/10, "r2"⟩) :=
  ⟨c3_merge_policy.1 [("A", some ⟨some "x", 9/10, "r1"⟩)] [("A", none)] "A"
      (by intro d hd; simp at hd),
   c3_merge_policy.2 [("A", some ⟨some "x", 9/10, "r1"⟩)] [] "A" ⟨some "y", 1/10, "r2"⟩
      (by intro d hd; simp at hd)⟩

/-- C7 counterexample: with field `HS CODE` expected but null after a valid
initial parse, and a re-ask that still returns null for it, the row fields
are value null and confidence `0.0` as claimed — but the status written is
`"Partial Success (After Re-ask)"`, not the claimed `"Partial Success"`. -/
theorem c7_counterexample :
    (finishExtraction ["HS CODE"] [("HS CODE", none)]
        (some [("HS CODE", none)])).2 = "Partial Success (After Re-ask)" ∧
    "Partial Success (After Re-ask)" ≠ "Partial Success" ∧
    buildExtractionRowFields "CRL" ["HS CODE"]
        (finishExtraction ["HS CODE"] [("HS CODE", none)]
          (some [("HS CODE", none)])).1 =
      [("CRL_HS CODE_Value", Cell.null),
       ("CRL_HS CODE_Confidence", Cell.num 0),
       ("CRL_HS CODE_Reasoning",
         Cell.str "Field was not returned by the LLM.")] := by
  refine ⟨by rfl, by decide, by rfl⟩

/-- C7 amended: when a valid initial parse leaves an expected field null
and the re-ask budget (a single targeted re-ask) fails to recover it, the
field's value column is null, its confidence column `0.0` with the fixed
reasoning message — and the row status is the string
`"Partial Success (After Re-ask)"` (which begins with, but is not equal
to, `"Partial Success"`). -/
theorem c7_partial_success_row (expected : List String)
    (initial : ExtractionResult) (reaskParse : Option ExtractionResult)
    (f ct : String) (hl : initial.lookup f = some none) (hf : f ∈ expected)
    (hre : ∀ r, reaskParse = some r → ∀ d : FieldDetail, (f, some d) ∉ r) :
    (finishExtraction expected initial reaskParse).2 =
      "Partial Success (After Re-ask)" ∧
    joinLookup (finishExtraction expected initial reaskParse).1 f = none ∧
    fieldColumns ct f
        (joinLookup (finishExtraction expected initial reaskParse).1 f) =
      [(ct ++ "_" ++ f ++ "_Value", Cell.null),
       (ct ++ "_" ++ f ++ "_Confidence", Cell.num 0),
       (ct ++ "_" ++ f ++ "_Reasoning",
         Cell.str "Field was not returned by the LLM.")] := by
  have hmem := mem_missingFields initial expected f hl hf
  have hempty : (missingFields initial expected).isEmpty = false := by
    cases hmf : missingFields initial expected with
    | nil => rw [hmf] at hmem; simp at hmem
    | cons a l => simp
  have hlook : joinLookup (finishExtraction expected initial reaskParse).1 f = none := by
    simp only [finishExtraction, hempty, Bool.false_eq_true, if_false]
    cases reaskParse with
    | none => simp [joinLookup, hl]
    | some r =>
      simp only [joinLookup]
      rw [mergeReask_lookup_of_not_mem r initial f (hre r rfl), hl]
      rfl
  refine ⟨?_, hlook, ?_⟩
  · simp [finishExtraction, hempty]
  · rw [hlook]
    rfl

/-- Witness for C7 amended at the Scenario C shape. -/
theorem c7_partial_success_row_witness :
    (finishExtraction ["HS CODE"] [("HS CODE", none)] none).2 =
      "Partial Success (After Re-ask)" ∧
    joinLookup (finishExtraction ["HS CODE"] [("HS CODE", none)] none).1
      "HS CODE" = none ∧
    fieldColumns "CRL" "HS CODE"
        (joinLookup (finishExtraction ["HS CODE"] [("HS CODE", none)] none).1
          "HS CODE") =
      [("CRL_HS CODE_Value", Cell.null),
       ("CRL_HS CODE_Confidence", Cell.num 0),
       ("CRL_HS CODE_Reasoning",
         Cell.str "Field was not returned by the LLM.")] :=
  c7_partial_success_row ["HS CODE"] [("HS CODE", none)] none "HS CODE" "CRL"
    (by rfl) (by decide) (by intro r hr; cases hr)

/-- One task is dispatched per discovered group, so the task count always
equals the computed group total. -/
theorem jobTasks_length (caseFolders : List (String × List String)) :
    (jobTasks caseFolders).length = process_zip_total_groups caseFolders := by
  simp only [jobTasks, process_zip_total_groups, List.length_flatten, List.map_map]
  have hfun : (List.length ∘ fun cf : String × List String =>
      List.map (fun g => (cf.1, g.1, g.2)) (_group_files_by_base_name cf.2)) =
      fun cf => (_group_files_by_base_name cf.2).length := by
    funext cf
    simp
  rw [hfun]

/-- C1: evaluating the pipeline at a job with the single group
`CaseA/Invoice 1.pdf`, `CaseA/Invoice 2.pdf` whose classification returns
the supported type `CRL`: `process_case_group` raises
`TypeError: string indices must be integers` (the restructured
section-keyed `DOCUMENT_FIELDS["CRL"]` is handed to
`create_extraction_model`, which its `List[Dict]` annotation contradicts),
the `as_completed` loop swallows the exception and appends no row, so the
group produces zero `ResultRow`s — while `groups_processed` still reaches
`total_groups`. -/
theorem c1_group_yields_no_row :
    process_zip_total_groups [("CaseA", ["Invoice 1.pdf", "Invoice 2.pdf"])] = 1 ∧
    jobTasks [("CaseA", ["Invoice 1.pdf", "Invoice 2.pdf"])] =
      [("CaseA", "Invoice", [⟨"Invoice 1.pdf", 1⟩, ⟨"Invoice 2.pdf", 2⟩])] ∧
    DOCUMENT_FIELDS.lookup "CRL" = some (.sectionDict CRL_SECTIONS) ∧
    process_case_group "CaseA" "Invoice" (.ok "CRL" (9/10) "clear request letter")
        (.ok []) none =
      .error "TypeError: string indices must be integers" ∧
    (runJobLoop (startJob (initJob "job-1") 1)
        [process_case_group "CaseA" "Invoice"
          (.ok "CRL" (9/10) "clear request letter") (.ok []) none]).2 = [] ∧
    (runJobLoop (startJob (initJob "job-1") 1)
        [process_case_group "CaseA" "Invoice"
          (.ok "CRL" (9/10) "clear request letter") (.ok []) none]).1.groups_processed = 1 ∧
    (runJobLoop (startJob (initJob "job-1") 1)
        [process_case_group "CaseA" "Invoice"
          (.ok "CRL" (9/10) "clear request letter") (.ok []) none]).1.total_groups = 1 := by
  refine ⟨by decide, by decide, by decide, by rfl, by rfl, by rfl, by rfl⟩

/-- C4 counterexample: `APPLICANT NAME` is a CRL field, yet the configured
column order has no `CRL_APPLICANT NAME_Confidence` (or `_Reasoning`)
column, so the sink drops the confidence cell a row carries; likewise the
CRL field `VALUE DATE` and the INVOICE SWIFT-code field have no matching
`_Value` column at all (the order spells them differently), so even their
values are dropped. -/
theorem c4_counterexample :
    (CRL_SECTIONS.map Prod.snd).flatten.contains "APPLICANT NAME" = true ∧
    EXCEL_COLUMN_ORDER.contains "CRL_APPLICANT NAME_Confidence" = false ∧
    (_append_to_csv_columns
        [("CASE_ID", .str "CaseA"),
         ("CRL_APPLICANT NAME_Value", .str "ACME Exports"),
         ("CRL_APPLICANT NAME_Confidence", .num (9/10)),
         ("CRL_APPLICANT NAME_Reasoning", .str "letterhead")]
        EXCEL_COLUMN_ORDER).lookup "CRL_APPLICANT NAME_Confidence" = none ∧
    (CRL_SECTIONS.map Prod.snd).flatten.contains "VALUE DATE" = true ∧
    EXCEL_COLUMN_ORDER.contains "CRL_VALUE DATE_Value" = false ∧
    (INVOICE_SECTIONS.map Prod.snd).flatten.contains
      "BENEFICIARY BANK SWIFT CODE / SORT CODE/ BSB / IFS CODE" = true ∧
    EXCEL_COLUMN_ORDER.contains
      "INVOICE_BENEFICIARY BANK SWIFT CODE / SORT CODE/ BSB / IFS CODE_Value" =
      false := by
  refine ⟨by decide, by decide, by rfl, by decide, by decide, by decide, by decide⟩

/-- C4 amended: every appended record has exactly the externally-configured
columns, in that order; a configured column missing from the record is
emitted as null and a present one keeps its value; every record key outside
the configured order — which includes all per-field confidence/reasoning
columns and the two mismatched value columns — is dropped. -/
theorem c4_sink_columns :
    (∀ row : Row,
        (_append_to_csv_columns row EXCEL_COLUMN_ORDER).map Prod.fst =
          EXCEL_COLUMN_ORDER) ∧
    (∀ (row : Row) (c : String), c ∈ EXCEL_COLUMN_ORDER → row.lookup c = none →
        (c, Cell.null) ∈ _append_to_csv_columns row EXCEL_COLUMN_ORDER) ∧
    (∀ (row : Row) (c : String) (v : Cell), c ∈ EXCEL_COLUMN_ORDER →
        row.lookup c = some v →
        (c, v) ∈ _append_to_csv_columns row EXCEL_COLUMN_ORDER) ∧
    (∀ (row : Row) (k : String) (v : Cell),
        (k, v) ∈ _append_to_csv_columns row EXCEL_COLUMN_ORDER →
        k ∈ EXCEL_COLUMN_ORDER) := by
  refine ⟨?_, ?_, ?_, ?_⟩
  · intro row
    simp only [_append_to_csv_columns, List.map_map]
    have hid : (Prod.fst ∘ fun c => (c, (List.lookup c row).getD Cell.null)) =
        id := by
      funext c
      rfl
    rw [hid, List.map_id]
  · intro row c hc h
    exact List.mem_map.mpr ⟨c, hc, by simp [h]⟩
  · intro row c v hc h
    exact List.mem_map.mpr ⟨c, hc, by simp [h]⟩
  · intro row k v hmem
    obtain ⟨c, hc, heq⟩ := List.mem_map.mp hmem
    have : k = c := by
      have := congrArg Prod.fst heq
      simpa using this.symm
    rw [this]
    exact hc

/-- Witness for C4 amended at a concrete row. -/
theorem c4_sink_columns_witness :
    ((_append_to_csv_columns [("CASE_ID", Cell.str "CaseA")]
        EXCEL_COLUMN_ORDER).map Prod.fst = EXCEL_COLUMN_ORDER) ∧
    ("GROUP_Basename", Cell.null) ∈
      _append_to_csv_columns [("CASE_ID", Cell.str "CaseA")] EXCEL_COLUMN_ORDER ∧
    ("CASE_ID", Cell.str "CaseA") ∈
      _append_to_csv_columns [("CASE_ID", Cell.str "CaseA")] EXCEL_COLUMN_ORDER :=
  ⟨c4_sink_columns.1 [("CASE_ID", Cell.str "CaseA")],
   c4_sink_columns.2.1 [("CASE_ID", Cell.str "CaseA")] "GROUP_Basename"
     (by decide) (by decide),
   c4_sink_columns.2.2.1 [("CASE_ID", Cell.str "CaseA")] "CASE_ID"
     (Cell.str "CaseA") (by decide) (by rfl)⟩

/-- C10 counterexample: after a failed task the loop increments
`groups_processed` without recomputing `progress_percent`, so with one
group the job ends with `groups_processed = total_groups = 1` but a stale
progress of `0`, not `1/1·100 = 100`. -/
theorem c10_counterexample :
    (runJobLoop (startJob (initJob "job-1") 1)
        [Except.error "TypeError: string indices must be integers"]).1.groups_processed = 1 ∧
    (runJobLoop (startJob (initJob "job-1") 1)
        [Except.error "TypeError: string indices must be integers"]).1.total_groups = 1 ∧
    (runJobLoop (startJob (initJob "job-1") 1)
        [Except.error "TypeError: string indices must be integers"]).1.progress_percent = 0 ∧
    (0 : ℚ) ≠ ((1 : ℚ) / (1 : ℚ)) * 100 := by
  refine ⟨by rfl, by rfl, by rfl, by norm_num⟩

/-- C10 amended: the group total never changes during the loop;
`groups_processed` rises by exactly one per completed task (hence is
non-decreasing and reaches `initial + #outcomes`); after a successful
completion with a positive total, `progress_percent` equals
`groups_processed/total_groups·100`; and the progress stays within
`[0, 100]` throughout — but after a failed task it keeps its previous,
stale value. -/
theorem c10_job_state_invariants :
    (∀ (job : JobStatus) (o : Except String Row),
        (stepJob job o).1.total_groups = job.total_groups) ∧
    (∀ (job : JobStatus) (o : Except String Row),
        (stepJob job o).1.groups_processed = job.groups_processed + 1) ∧
    (∀ (outcomes : List (Except String Row)) (job : JobStatus),
        (runJobLoop job outcomes).1.groups_processed =
          job.groups_processed + outcomes.length ∧
        (runJobLoop job outcomes).1.total_groups = job.total_groups) ∧
    (∀ (job : JobStatus) (row : Row), job.total_groups > 0 →
        (stepJob job (.ok row)).1.progress_percent =
          ((job.groups_processed + 1 : ℕ) : ℚ) /
            ((job.total_groups : ℕ) : ℚ) * 100) ∧
    (∀ (job : JobStatus) (o : Except String Row),
        job.groups_processed + 1 ≤ job.total_groups →
        0 ≤ job.progress_percent → job.progress_percent ≤ 100 →
        0 ≤ (stepJob job o).1.progress_percent ∧
          (stepJob job o).1.progress_percent ≤ 100) := by
  refine ⟨?_, ?_, ?_, ?_, ?_⟩
  · intro job o
    cases o <;> rfl
  · intro job o
    cases o <;> rfl
  · intro outcomes
    induction outcomes with
    | nil => intro job; simp [runJobLoop]
    | cons o rest ih =>
      intro job
      simp only [runJobLoop]
      obtain ⟨ihgp, ihtotal⟩ := ih (stepJob job o).1
      constructor
      · rw [ihgp]
        have : (stepJob job o).1.groups_processed = job.groups_processed + 1 := by
          cases o <;> rfl
        rw [this]
        simp [List.length_cons]
        omega
      · rw [ihtotal]
        cases o <;> rfl
  · intro job row hpos
    simp [stepJob, hpos]
  · intro job o hle h0 h100
    cases o with
    | error m => exact ⟨h0, h100⟩
    | ok row =>
      have hpos : job.total_groups > 0 := by omega
      simp only [stepJob, hpos, if_true]
      constructor
      · positivity
      · have hq : ((job.groups_processed + 1 : ℕ) : ℚ) ≤ (job.total_groups : ℚ) := by
          exact_mod_cast hle
        have htq : (0 : ℚ) < (job.total_groups : ℚ) := by exact_mod_cast hpos
        have hdiv : ((job.groups_processed + 1 : ℕ) : ℚ) /
            (job.total_groups : ℚ) ≤ 1 := by
          rw [div_le_one htq]
          exact hq
        calc ((job.groups_processed + 1 : ℕ) : ℚ) / (job.total_groups : ℚ) * 100
            ≤ 1 * 100 := by
              apply mul_le_mul_of_nonneg_right hdiv
              norm_num
          _ = 100 := by norm_num

/-- Witness for C10 amended at a concrete two-group job. -/
theorem c10_job_state_invariants_witness :
    (stepJob (startJob (initJob "j") 2) (.error "x")).1.total_groups =
      (startJob (initJob "j") 2).total_groups ∧
    (stepJob (startJob (initJob "j") 2) (.error "x")).1.groups_processed =
      (startJob (initJob "j") 2).groups_processed + 1 ∧
    ((runJobLoop (startJob (initJob "j") 2) [.error "x"]).1.groups_processed =
        (startJob (initJob "j") 2).groups_processed + 1 ∧
      (runJobLoop (startJob (initJob "j") 2) [.error "x"]).1.total_groups =
        (startJob (initJob "j") 2).total_groups) ∧
    (stepJob (startJob (initJob "j") 2) (.ok [])).1.progress_percent =
      (((startJob (initJob "j") 2).groups_processed + 1 : ℕ) : ℚ) /
        (((startJob (initJob "j") 2).total_groups : ℕ) : ℚ) * 100 ∧
    (0 ≤ (stepJob (startJob (initJob "j") 2) (.error "x")).1.progress_percent ∧
      (stepJob (startJob (initJob "j") 2) (.error "x")).1.progress_percent ≤ 100) :=
  ⟨c10_job_state_invariants.1 (startJob (initJob "j") 2) (.error "x"),
   c10_job_state_invariants.2.1 (startJob (initJob "j") 2) (.error "x"),
   c10_job_state_invariants.2.2.1 [.error "x"] (startJob (initJob "j") 2),
   c10_job_state_invariants.2.2.2.1 (startJob (initJob "j") 2) [] (by decide),
   c10_job_state_invariants.2.2.2.2 (startJob (initJob "j") 2) (.error "x")
     (by decide) (show (0 : ℚ) ≤ 0 from le_refl 0)
     (show (0 : ℚ) ≤ 100 from by norm_num)⟩

end NeevTradeOps
